import Mathlib

/-!
Shallow embedding of the CIFTI-2 header data model and XML serialization
layer of `nibabel/cifti2/cifti2.py`, together with proofs about its
construction, mutation and serialization operations.

Conventions of the embedding:
* Python exceptions become the `Cifti2Error` sum type; a method that can
  raise returns `Except Cifti2Error α`.  A mutating method that raises
  before touching the object leaves the modelled state unchanged.
* Python `float` values are modelled as `ℚ` (only order comparisons and
  rendering matter for the modelled code, no rounding arithmetic occurs).
* `xml.Element` is modelled by the `Element` structure: a tag, an ordered
  attribute list, optional text and an ordered child list.
* Ordered dictionaries (`collections.OrderedDict`) are modelled as
  association lists in insertion order.
* Indices are modelled as `Nat`; Python's negative-index wrap-around is
  not used by any modelled claim.
-/

/-- Python exception taxonomy raised by the modelled code. -/
inductive Cifti2Error where
  | headerError (msg : String)
  | valueError (msg : String)
  | keyError (key : String)
  | typeError (msg : String)
  | attributeError (msg : String)
  | indexError (msg : String)
  | notImplementedError
deriving DecidableEq

/-- Model of `xml.Element`: tag, ordered attributes, optional text, children. -/
structure Element where
  tag : String
  attrib : List (String × String)
  text : Option String
  children : List Element

/-- Python `str()` of an `int`. -/
def pyIntStr (i : Int) : String := toString i

/-- Python `str()` of an optional `int`: `str(None)` is the literal `"None"`. -/
def pyOptIntStr : Option Int → String
  | none => "None"
  | some i => toString i

/-- Rendering of a Python `float` by `str()`.  The exact decimal rendering of
CPython is abstracted as the canonical rendering of the rational; no claim
equates this string with a concrete decimal literal. -/
def pyFloatStr (q : ℚ) : String := toString q

/-- Model of `_float_01` (source lines 31-35): coerce to float and require it
to lie in `[0, 1]`. -/
def float_01 (val : ℚ) : Except Cifti2Error ℚ :=
  if val < 0 ∨ val > 1 then
    .error (.valueError "Float must be between 0 and 1 inclusive")
  else
    .ok val

/-- Model of `Cifti2MetaData` (source lines 103-157): an ordered mapping of names to
values, modelled as an association list in insertion order.  Keys and values
are strings. -/
structure Cifti2MetaData where
  data : List (String × String)
deriving DecidableEq

/-- The keys of an ordered mapping, in order. -/
def odKeys (d : List (String × String)) : List String := d.map Prod.fst

/-- Model of `del d[k]` on an ordered mapping: remove the entry with key `k`,
`none` (a `KeyError`) if the key is absent. -/
def odDelete (d : List (String × String)) (k : String) :
    Option (List (String × String)) :=
  match d with
  | [] => none
  | (k', v) :: rest =>
    if k' = k then some rest
    else (odDelete rest k).map (fun r => (k', v) :: r)

/-- Keys of `dict(pairs)` in Python: first-occurrence order, duplicates
dropped. -/
def dictKeys : List (String × String) → List String
  | [] => []
  | (k, _) :: rest => k :: (dictKeys rest).filter (fun k' => k' != k)

/-- Remove from an ordered mapping every entry whose key belongs to `ks`. -/
def removeKeys (d : List (String × String)) (ks : List String) :
    List (String × String) :=
  d.filter (fun p => !(ks.contains p.1))

/-- The deletion loop of `difference_update` (source lines 145-146):
delete each key in turn; on a missing key stop with a `KeyError`, keeping
the deletions already performed. -/
def delKeysLoop : Cifti2MetaData → List String →
    Cifti2MetaData × Option Cifti2Error
  | m, [] => (m, none)
  | m, k :: ks =>
    match odDelete m.data k with
    | some d' => delKeysLoop ⟨d'⟩ ks
    | none => (m, some (.keyError k))

/-- Model of `Cifti2MetaData.difference_update` (source lines 130-146).  Returns the
post-state together with the raised exception, if any. -/
def Cifti2MetaData.difference_update (m : Cifti2MetaData)
    (metadata : Option (List (String × String))) :
    Cifti2MetaData × Option Cifti2Error :=
  match metadata with
  | none => (m, some (.valueError "The metadata parameter can't be None"))
  | some md => delKeysLoop m (dictKeys md)

-- Basic facts about `odDelete` and key lists.

theorem odDelete_mem_some (d : List (String × String)) (k : String)
    (h : k ∈ odKeys d) : ∃ d', odDelete d k = some d' := by
  induction d with
  | nil => simp [odKeys] at h
  | cons p rest ih =>
    obtain ⟨k', v⟩ := p
    by_cases hk : k' = k
    · exact ⟨rest, by simp [odDelete, hk]⟩
    · simp only [odKeys, List.map_cons, List.mem_cons] at h
      rcases h with h | h
      · exact absurd h.symm hk
      · obtain ⟨d', hd'⟩ := ih h
        exact ⟨(k', v) :: d', by simp [odDelete, hk, hd']⟩

theorem odDelete_not_mem (d : List (String × String)) (k : String)
    (h : k ∉ odKeys d) : odDelete d k = none := by
  induction d with
  | nil => rfl
  | cons p rest ih =>
    obtain ⟨k', v⟩ := p
    simp only [odKeys, List.map_cons, List.mem_cons, not_or] at h
    simp [odDelete, show ¬ k' = k from fun hh => h.1 hh.symm,
      ih (by simpa [odKeys] using h.2)]

theorem odDelete_keys_sub (d d' : List (String × String)) (k : String)
    (h : odDelete d k = some d') : odKeys d' ⊆ odKeys d := by
  induction d generalizing d' with
  | nil => simp [odDelete] at h
  | cons p rest ih =>
    obtain ⟨k', v⟩ := p
    by_cases hk : k' = k
    · subst hk
      have h' : rest = d' := by simpa [odDelete] using h
      intro x hx
      exact List.mem_cons_of_mem _ (h' ▸ hx)
    · simp only [odDelete, if_neg hk] at h
      match hrec : odDelete rest k with
      | none => rw [hrec] at h; simp at h
      | some r =>
        rw [hrec] at h
        have h2 : (k', v) :: r = d' := by simpa using h
        subst h2
        intro x hx
        simp only [odKeys, List.map_cons, List.mem_cons] at hx ⊢
        rcases hx with hx | hx
        · exact Or.inl hx
        · exact Or.inr (ih r hrec hx)

theorem odDelete_nodup_eq_filter (d : List (String × String)) (k : String)
    (hnd : (odKeys d).Nodup) (hmem : k ∈ odKeys d) :
    odDelete d k = some (d.filter (fun p => p.1 != k)) := by
  induction d with
  | nil => simp [odKeys] at hmem
  | cons p rest ih =>
    obtain ⟨k', v⟩ := p
    simp only [odKeys, List.map_cons, List.nodup_cons] at hnd
    by_cases hk : k' = k
    · subst hk
      have hfix : rest.filter (fun p => p.1 != k') = rest := by
        apply List.filter_eq_self.mpr
        intro p hp
        simp only [bne_iff_ne, ne_eq]
        intro hpk
        exact hnd.1 (by simpa [odKeys, hpk] using List.mem_map_of_mem Prod.fst hp)
      simp [odDelete, List.filter_cons, hfix]
    · simp only [odKeys, List.map_cons, List.mem_cons] at hmem
      rcases hmem with h | h
      · exact absurd h.symm hk
      · simp [odDelete, hk, ih hnd.2 h, List.filter_cons,
          show (k' != k) = true by simpa using hk]

theorem odKeys_filter_ne (k : String) (d : List (String × String)) :
    odKeys (d.filter (fun p => p.1 != k)) = (odKeys d).filter (fun x => x != k) := by
  induction d with
  | nil => rfl
  | cons p rest ih =>
    by_cases h : p.1 = k
    · simpa [odKeys, List.filter_cons, h] using ih
    · simpa [odKeys, List.filter_cons, h] using ih

theorem mem_odKeys_filter_ne (k k' : String) (d : List (String × String))
    (hmem : k' ∈ odKeys d) (hne : k' ≠ k) :
    k' ∈ odKeys (d.filter (fun p => p.1 != k)) := by
  rw [odKeys_filter_ne]
  exact List.mem_filter.mpr ⟨hmem, by simpa using hne⟩

theorem removeKeys_filter (k : String) (ks : List String)
    (d : List (String × String)) :
    removeKeys (d.filter (fun p => p.1 != k)) ks = removeKeys d (k :: ks) := by
  induction d with
  | nil => rfl
  | cons p rest ih =>
    by_cases hk : p.1 = k
    · simpa [removeKeys, List.filter_cons, hk] using ih
    · by_cases hks : p.1 ∈ ks
      · simpa [removeKeys, List.filter_cons, hk, hks] using ih
      · simpa [removeKeys, List.filter_cons, hk, hks] using ih

theorem dictKeys_nodup (md : List (String × String)) : (dictKeys md).Nodup := by
  induction md with
  | nil => exact List.nodup_nil
  | cons p rest ih =>
    refine List.nodup_cons.mpr ⟨?_, ih.filter _⟩
    intro hmem
    have := (List.mem_filter.mp hmem).2
    simp at this

-- Behaviour of the deletion loop.

theorem delKeysLoop_all_present (ks : List String) :
    ∀ m : Cifti2MetaData, (odKeys m.data).Nodup → ks.Nodup →
    (∀ k ∈ ks, k ∈ odKeys m.data) →
    delKeysLoop m ks = (⟨removeKeys m.data ks⟩, none) := by
  induction ks with
  | nil =>
    intro m _ _ _
    simp [delKeysLoop, removeKeys]
  | cons k ks ih =>
    intro m hnd hksnd hall
    have hk : k ∈ odKeys m.data := hall k (List.mem_cons_self k ks)
    rw [delKeysLoop, odDelete_nodup_eq_filter m.data k hnd hk]
    have hksnd' := (List.nodup_cons.mp hksnd)
    have hnd' : (odKeys (m.data.filter (fun p => p.1 != k))).Nodup := by
      rw [odKeys_filter_ne]
      exact hnd.filter _
    have hall' : ∀ k' ∈ ks, k' ∈ odKeys (m.data.filter (fun p => p.1 != k)) := by
      intro k' hk'
      refine mem_odKeys_filter_ne k k' m.data (hall k' (List.mem_cons_of_mem _ hk')) ?_
      intro hkk
      exact hksnd'.1 (hkk ▸ hk')
    dsimp only
    rw [ih ⟨m.data.filter (fun p => p.1 != k)⟩ hnd' hksnd'.2 hall']
    rw [Prod.mk.injEq]
    exact ⟨by rw [Cifti2MetaData.mk.injEq]; exact removeKeys_filter k ks m.data, rfl⟩

theorem delKeysLoop_absent_fails (ks : List String) :
    ∀ m : Cifti2MetaData, (∃ k ∈ ks, k ∉ odKeys m.data) →
    ∃ k, (delKeysLoop m ks).2 = some (.keyError k) := by
  induction ks with
  | nil =>
    intro m h
    simp at h
  | cons k ks ih =>
    intro m h
    obtain ⟨k0, hk0mem, hk0abs⟩ := h
    by_cases hk : k ∈ odKeys m.data
    · obtain ⟨d', hd'⟩ := odDelete_mem_some m.data k hk
      rw [delKeysLoop, hd']
      apply ih ⟨d'⟩
      have hk0ks : k0 ∈ ks := by
        rcases List.mem_cons.mp hk0mem with h | h
        · exact absurd (h ▸ hk) hk0abs
        · exact h
      exact ⟨k0, hk0ks, fun hmem => hk0abs (odDelete_keys_sub m.data d' k hd' hmem)⟩
    · rw [delKeysLoop, odDelete_not_mem m.data k hk]
      exact ⟨k, rfl⟩

/-- C6: `difference_update(other)` removes every key of `other` when all are
present (leaving the remaining entries, in order, with no error); raises a
`KeyError` when some key of `other` is absent; and raises a `ValueError`
leaving the container unchanged when `other` is `None`. -/
theorem difference_update_spec (m : Cifti2MetaData)
    (other : List (String × String)) (hnd : (odKeys m.data).Nodup) :
    (m.difference_update none =
      (m, some (.valueError "The metadata parameter can't be None"))) ∧
    ((∀ k ∈ dictKeys other, k ∈ odKeys m.data) →
      m.difference_update (some other) =
        (⟨removeKeys m.data (dictKeys other)⟩, none)) ∧
    ((∃ k ∈ dictKeys other, k ∉ odKeys m.data) →
      ∃ k, (m.difference_update (some other)).2 = some (.keyError k)) := by
  refine ⟨rfl, ?_, ?_⟩
  · intro hall
    exact delKeysLoop_all_present (dictKeys other) m hnd
      (dictKeys_nodup other) hall
  · intro hex
    exact delKeysLoop_absent_fails (dictKeys other) m hex

/-- Witness for C6 at concrete inputs: `m = {a: 1, b: 2}`, `other = {a: x}`
(all keys present) and `other = {c: y}` (absent key). -/
theorem difference_update_spec_witness :
    ((Cifti2MetaData.mk [("a", "1"), ("b", "2")]).difference_update none =
      (Cifti2MetaData.mk [("a", "1"), ("b", "2")],
        some (.valueError "The metadata parameter can't be None"))) ∧
    ((Cifti2MetaData.mk [("a", "1"), ("b", "2")]).difference_update
        (some [("a", "x")]) =
      (⟨removeKeys [("a", "1"), ("b", "2")] (dictKeys [("a", "x")])⟩, none)) ∧
    (∃ k, ((Cifti2MetaData.mk [("a", "1"), ("b", "2")]).difference_update
        (some [("c", "y")])).2 = some (.keyError k)) := by
  have h := difference_update_spec (Cifti2MetaData.mk [("a", "1"), ("b", "2")])
    [("a", "x")] (by decide)
  have h' := difference_update_spec (Cifti2MetaData.mk [("a", "1"), ("b", "2")])
    [("c", "y")] (by decide)
  exact ⟨h.1, h.2.1 (by decide), h'.2.2 (by decide)⟩

/-- C9: `difference_update` is not atomic on error: on `m = {a: 1, b: 2}` and
`other = {a: x, c: y}` it raises `KeyError(c)` yet has already deleted the
key `a`, leaving the container partially modified. -/
theorem difference_update_not_atomic :
    (Cifti2MetaData.mk [("a", "1"), ("b", "2")]).difference_update
        (some [("a", "x"), ("c", "y")]) =
      (Cifti2MetaData.mk [("b", "2")], some (.keyError "c")) ∧
    ("a", "1") ∈ (Cifti2MetaData.mk [("a", "1"), ("b", "2")]).data := by
  exact ⟨by decide, by decide⟩

/-- A Python value as it can appear inside a label tuple: a string or a
float.  Parsing of numeric strings by `float()` is not modelled (no claim
exercises it); `float()` of a non-numeric string raises `ValueError`. -/
inductive PyVal where
  | str (s : String)
  | num (q : ℚ)
deriving DecidableEq

/-- Python `str()` of a `PyVal`. -/
def pyStr : PyVal → String
  | .str s => s
  | .num q => pyFloatStr q

/-- Python `float()` of a `PyVal`. -/
def pyFloat : PyVal → Except Cifti2Error ℚ
  | .num q => .ok q
  | .str _ => .error (.valueError "could not convert string to float")

/-- Model of `_float_01` applied to an arbitrary value: `float(val)` then the
bounds check. -/
def float_01v (v : PyVal) : Except Cifti2Error ℚ :=
  match pyFloat v with
  | .ok q => float_01 q
  | .error e => .error e

/-- Model of `Cifti2Label` (source lines 205-232): an integer key, a name and four
color components.  `__init__` coerces `key` with `int()` (already an `Int`
here), `label` with `str()` and each color with `_float_01`; after
construction the attributes are plain mutable fields, so arbitrary color
values are representable. -/
structure Cifti2Label where
  key : Int
  label : String
  red : ℚ
  green : ℚ
  blue : ℚ
  alpha : ℚ
deriving DecidableEq

/-- Model of `Cifti2Label.__init__` (source lines 226-232). -/
def Cifti2Label.init (key : Int) (label : PyVal)
    (red green blue alpha : PyVal) : Except Cifti2Error Cifti2Label := do
  let r ← float_01v red
  let g ← float_01v green
  let b ← float_01v blue
  let a ← float_01v alpha
  .ok ⟨key, pyStr label, r, g, b, a⟩

/-- Model of `getattr(self, name)` for the four color fields. -/
def Cifti2Label.colorAttr (l : Cifti2Label) : String → ℚ
  | "red" => l.red
  | "green" => l.green
  | "blue" => l.blue
  | _ => l.alpha

/-- Python `str.capitalize()` restricted to the already-lowercase field
names used by the source. -/
def pyCapitalize (s : String) : String :=
  match s.data with
  | [] => ""
  | c :: cs => String.mk (c.toUpper :: cs)

/-- The color-attribute rendering of `Cifti2Label._to_xml_element`
(source line 261): `'0' if val == 0 else '1' if val == 1 else str(val)`. -/
def colorAttrStr (val : ℚ) : String :=
  if val = 0 then "0" else if val = 1 then "1" else pyFloatStr val

/-- The validation loop of `Cifti2Label._to_xml_element` (source lines
246-253): check the colors in the source's order red, blue, green, alpha and
raise on the first failure; `v` threads the previously coerced value, which
is interpolated into the message. -/
def Cifti2Label.checkLoop (l : Cifti2Label) :
    List String → String → Except Cifti2Error Unit
  | [], _ => .ok ()
  | c :: cs, v =>
    match float_01 (l.colorAttr c) with
    | .ok out => Cifti2Label.checkLoop l cs (pyFloatStr out)
    | .error _ =>
      .error (.headerError ("Label invalid " ++ c ++
        " needs to be a float between 0 and 1. and it is " ++ v))

/-- Model of `Cifti2Label._to_xml_element` (source lines 239-263).  The `int(self.key)`
coercion cannot fail here because `key` is an `Int` in this model.  On
success the attributes are `Key` followed by the four colors rendered in
the order red, green, blue, alpha. -/
def Cifti2Label.toXmlElement (l : Cifti2Label) : Except Cifti2Error Element :=
  if l.label = "" then .error (.headerError "Label needs a name")
  else
    match l.checkLoop ["red", "blue", "green", "alpha"] (pyIntStr l.key) with
    | .error e => .error e
    | .ok _ =>
      .ok { tag := "Label"
          , attrib := ("Key", pyIntStr l.key) ::
              (["red", "green", "blue", "alpha"].map
                (fun name => (pyCapitalize name, colorAttrStr (l.colorAttr name))))
          , text := some l.label
          , children := [] }

/-- A color field is offending when `_float_01` rejects it. -/
def Cifti2Label.colorBad (l : Cifti2Label) (c : String) : Bool :=
  decide (l.colorAttr c < 0 ∨ l.colorAttr c > 1)

/-- All offending color fields of a label, in the field order
red, green, blue, alpha. -/
def Cifti2Label.offendingColorFields (l : Cifti2Label) : List String :=
  ["red", "green", "blue", "alpha"].filter l.colorBad

/-- The first color field rejected by the validation loop, in the loop's
order red, blue, green, alpha. -/
def Cifti2Label.firstOffending (l : Cifti2Label) : Option String :=
  ["red", "blue", "green", "alpha"].find? l.colorBad

/-- Whether `pat` occurs at the start of `cs`. -/
def charsStartWith : List Char → List Char → Bool
  | [], _ => true
  | _ :: _, [] => false
  | a :: as, b :: bs => a == b && charsStartWith as bs

/-- Whether `pat` occurs anywhere inside `cs`. -/
def charsContain (pat : List Char) : List Char → Bool
  | [] => pat.isEmpty
  | c :: rest => charsStartWith pat (c :: rest) || charsContain pat rest

/-- Whether an error message mentions a field name as a substring. -/
def strMentions (msg fieldName : String) : Bool :=
  charsContain fieldName.data msg.data


theorem float_01_bad (q : ℚ) (h : q < 0 ∨ q > 1) :
    float_01 q = .error (.valueError "Float must be between 0 and 1 inclusive") := by
  simp [float_01, h]

theorem float_01_good (q : ℚ) (h : ¬ (q < 0 ∨ q > 1)) : float_01 q = .ok q := by
  simp [float_01, h]

theorem checkLoop_first_bad (l : Cifti2Label) (cs : List String) :
    ∀ (v : String) (c : String), cs.find? l.colorBad = some c →
    ∃ v', l.checkLoop cs v = .error (.headerError ("Label invalid " ++ c ++
      " needs to be a float between 0 and 1. and it is " ++ v')) := by
  induction cs with
  | nil => intro v c h; simp at h
  | cons c0 cs ih =>
    intro v c h
    by_cases hb : l.colorBad c0
    · rw [List.find?_cons_of_pos _ hb] at h
      obtain rfl : c0 = c := Option.some.inj h
      have hbad := float_01_bad (l.colorAttr c0)
        (by simpa [Cifti2Label.colorBad] using hb)
      exact ⟨v, by simp [Cifti2Label.checkLoop, hbad]⟩
    · rw [List.find?_cons_of_neg _ (by simpa using hb)] at h
      have hgood : float_01 (l.colorAttr c0) = .ok (l.colorAttr c0) :=
        float_01_good _ (by simpa [Cifti2Label.colorBad] using hb)
      obtain ⟨v', hv⟩ := ih (pyFloatStr (l.colorAttr c0)) c h
      exact ⟨v', by simp [Cifti2Label.checkLoop, hgood, hv]⟩

/-- C3 counterexample: for the label with `key=0`, `label="x"`, `red=5`,
`green=5`, `blue=0`, `alpha=0`, both `red` and `green` are offending, yet
serialization raises a single `HeaderError` naming only `red` — the error
message does not mention `green`, so the errors are not collected
per field name. -/
theorem label_errors_not_collected :
    Cifti2Label.toXmlElement ⟨0, "x", 5, 5, 0, 0⟩ =
      .error (.headerError
        "Label invalid red needs to be a float between 0 and 1. and it is 0") ∧
    Cifti2Label.offendingColorFields ⟨0, "x", 5, 5, 0, 0⟩ = ["red", "green"] ∧
    strMentions
      "Label invalid red needs to be a float between 0 and 1. and it is 0"
      "green" = false := by
  refine ⟨rfl, by decide, by decide⟩

/-- C3 amended: `Cifti2Label` serialization raises a single `HeaderError`
for the first failing check only.  An empty label raises `"Label needs a
name"` before any color is looked at (the conjunct holds for every label,
offending colors included); with a non-empty label, the colors are
validated in the source order red, blue, green, alpha and the raised
`HeaderError` names exactly the first offending field — offending fields
are not collected. -/
theorem label_serialization_reports_first_error (l : Cifti2Label)
    (c : String) :
    (l.label = "" →
      l.toXmlElement = .error (.headerError "Label needs a name")) ∧
    (l.label ≠ "" → l.firstOffending = some c →
      ∃ v, l.toXmlElement = .error (.headerError ("Label invalid " ++ c ++
        " needs to be a float between 0 and 1. and it is " ++ v))) := by
  constructor
  · intro hlbl
    simp [Cifti2Label.toXmlElement, hlbl]
  · intro hlbl hc
    obtain ⟨v', hv⟩ := checkLoop_first_bad l ["red", "blue", "green", "alpha"]
      (pyIntStr l.key) c (by simpa [Cifti2Label.firstOffending] using hc)
    exact ⟨v', by simp [Cifti2Label.toXmlElement, hlbl, hv]⟩

/-- Witness for the amended C3: the empty-label error wins over the bad red
component on `⟨0, "", 5, 5, 0, 0⟩`, and the counterexample's label
`⟨0, "x", 5, 5, 0, 0⟩` raises the red error. -/
theorem label_serialization_reports_first_error_witness :
    Cifti2Label.toXmlElement ⟨0, "", 5, 5, 0, 0⟩ =
      .error (.headerError "Label needs a name") ∧
    ∃ v, Cifti2Label.toXmlElement ⟨0, "x", 5, 5, 0, 0⟩ =
      .error (.headerError ("Label invalid " ++ "red" ++
        " needs to be a float between 0 and 1. and it is " ++ v)) :=
  ⟨(label_serialization_reports_first_error ⟨0, "", 5, 5, 0, 0⟩ "red").1 rfl,
   (label_serialization_reports_first_error ⟨0, "x", 5, 5, 0, 0⟩ "red").2
     (by decide) (by decide)⟩

/-- C8: whenever a `Cifti2Label` serializes successfully, each color
attribute Red/Green/Blue/Alpha is rendered as exactly `"0"` when the
component equals 0, exactly `"1"` when it equals 1, and as the component's
decimal rendering otherwise. -/
theorem label_color_attribute_format (l : Cifti2Label) (el : Element)
    (h : l.toXmlElement = .ok el) :
    el.attrib = [("Key", pyIntStr l.key),
      ("Red", if l.red = 0 then "0" else if l.red = 1 then "1" else pyFloatStr l.red),
      ("Green", if l.green = 0 then "0" else if l.green = 1 then "1" else pyFloatStr l.green),
      ("Blue", if l.blue = 0 then "0" else if l.blue = 1 then "1" else pyFloatStr l.blue),
      ("Alpha", if l.alpha = 0 then "0" else if l.alpha = 1 then "1" else pyFloatStr l.alpha)] := by
  by_cases hlbl : l.label = ""
  · simp [Cifti2Label.toXmlElement, hlbl] at h
  · rw [Cifti2Label.toXmlElement, if_neg hlbl] at h
    match hck : l.checkLoop ["red", "blue", "green", "alpha"] (pyIntStr l.key) with
    | .error e => rw [hck] at h; simp at h
    | .ok _ =>
      rw [hck] at h
      injection h with h
      subst h
      rfl

/-- Witness for C8 at a concrete serializable label. -/
theorem label_color_attribute_format_witness :
    (Element.mk "Label"
      [("Key", "1"), ("Red", "0"), ("Green", "1"), ("Blue", "0"), ("Alpha", "1")]
      (some "a") []).attrib =
    [("Key", pyIntStr 1),
      ("Red", if (0 : ℚ) = 0 then "0" else if (0 : ℚ) = 1 then "1" else pyFloatStr 0),
      ("Green", if (1 : ℚ) = 0 then "0" else if (1 : ℚ) = 1 then "1" else pyFloatStr 1),
      ("Blue", if (0 : ℚ) = 0 then "0" else if (0 : ℚ) = 1 then "1" else pyFloatStr 0),
      ("Alpha", if (1 : ℚ) = 0 then "0" else if (1 : ℚ) = 1 then "1" else pyFloatStr 1)] :=
  label_color_attribute_format ⟨1, "a", 0, 1, 0, 1⟩
    (Element.mk "Label"
      [("Key", "1"), ("Red", "0"), ("Green", "1"), ("Blue", "0"), ("Alpha", "1")]
      (some "a") []) rfl

/-- Model of `d[k] = v` on an ordered mapping with `Int` keys: overwrite in place if
the key exists, append otherwise. -/
def odSetInt (d : List (Int × Cifti2Label)) (k : Int) (v : Cifti2Label) :
    List (Int × Cifti2Label) :=
  match d with
  | [] => [(k, v)]
  | (k', v') :: rest =>
    if k' = k then (k, v) :: rest else (k', v') :: odSetInt rest k v

/-- Model of `del d[k]` on an ordered mapping with `Int` keys. -/
def odDeleteInt (d : List (Int × Cifti2Label)) (k : Int) :
    Option (List (Int × Cifti2Label)) :=
  match d with
  | [] => none
  | (k', v) :: rest =>
    if k' = k then some rest
    else (odDeleteInt rest k).map (fun r => (k', v) :: r)

theorem mem_odSetInt (d : List (Int × Cifti2Label)) (k : Int)
    (v : Cifti2Label) (p : Int × Cifti2Label) (h : p ∈ odSetInt d k v) :
    p = (k, v) ∨ p ∈ d := by
  induction d with
  | nil => simpa [odSetInt] using h
  | cons q rest ih =>
    obtain ⟨k', v'⟩ := q
    by_cases hk : k' = k
    · simp only [odSetInt, if_pos hk, List.mem_cons] at h
      rcases h with h | h
      · exact Or.inl h
      · exact Or.inr (List.mem_cons_of_mem _ h)
    · simp only [odSetInt, if_neg hk, List.mem_cons] at h
      rcases h with h | h
      · exact Or.inr (h ▸ List.mem_cons_self _ _)
      · rcases ih h with h' | h'
        · exact Or.inl h'
        · exact Or.inr (List.mem_cons_of_mem _ h')

theorem mem_odDeleteInt (d d' : List (Int × Cifti2Label)) (k : Int)
    (h : odDeleteInt d k = some d') : ∀ p ∈ d', p ∈ d := by
  induction d generalizing d' with
  | nil => simp [odDeleteInt] at h
  | cons q rest ih =>
    obtain ⟨k', v⟩ := q
    by_cases hk : k' = k
    · have h' : rest = d' := by simpa [odDeleteInt, hk] using h
      intro p hp
      exact List.mem_cons_of_mem _ (h' ▸ hp)
    · simp only [odDeleteInt, if_neg hk] at h
      match hrec : odDeleteInt rest k with
      | none => rw [hrec] at h; simp at h
      | some r =>
        rw [hrec] at h
        have h2 : (k', v) :: r = d' := by simpa using h
        subst h2
        intro p hp
        rcases List.mem_cons.mp hp with hp | hp
        · exact hp ▸ List.mem_cons_self _ _
        · exact List.mem_cons_of_mem _ (ih r hrec p hp)

/-- Model of `Cifti2LabelTable` (source lines 160-202): an ordered mapping from
integer keys to labels. -/
structure Cifti2LabelTable where
  _labels : List (Int × Cifti2Label)
deriving DecidableEq

/-- The right-hand side of a `table[key] = value` assignment: either an
existing `Cifti2Label` object or an arbitrary-length sequence of values. -/
inductive LabelSetValue where
  | lbl (l : Cifti2Label)
  | seq (entries : List PyVal)

/-- Model of `Cifti2Label(*([key] + list(value)))` of source line 185: unpack a
5-element sequence into the label constructor.  The default arm is
unreachable in `__setitem__`, which has already checked the length. -/
def labelFromSeq (key : Int) (entries : List PyVal) :
    Except Cifti2Error Cifti2Label :=
  match entries with
  | [lab, rv, gv, bv, av] => Cifti2Label.init key lab rv gv bv av
  | _ => .error (.valueError "Value should be length 5")

/-- Model of `Cifti2LabelTable.__setitem__` (source lines 176-188). -/
def Cifti2LabelTable.setitem (t : Cifti2LabelTable) (key : Int)
    (value : LabelSetValue) : Except Cifti2Error Cifti2LabelTable :=
  match value with
  | .lbl l =>
    if key ≠ l.key then
      .error (.valueError "The key and the label's key must agree")
    else .ok ⟨odSetInt t._labels key l⟩
  | .seq entries =>
    if entries.length ≠ 5 then .error (.valueError "Value should be length 5")
    else
      match labelFromSeq key entries with
      | .ok l => .ok ⟨odSetInt t._labels key l⟩
      | .error _ =>
        .error (.valueError
          "Key should be int, value should be sequence of str and 4 floats between 0 and 1")

/-- Model of `Cifti2LabelTable.append` (source lines 173-174): `self[label.key] = label`. -/
def Cifti2LabelTable.append (t : Cifti2LabelTable) (l : Cifti2Label) :
    Except Cifti2Error Cifti2LabelTable :=
  t.setitem l.key (.lbl l)

/-- Model of `Cifti2LabelTable.__delitem__` (source lines 190-191). -/
def Cifti2LabelTable.delitem (t : Cifti2LabelTable) (key : Int) :
    Except Cifti2Error Cifti2LabelTable :=
  match odDeleteInt t._labels key with
  | some d => .ok ⟨d⟩
  | none => .error (.keyError (toString key))

/-- A mutation of a `Cifti2LabelTable`. -/
inductive LabelTableOp where
  | set (key : Int) (value : LabelSetValue)
  | append (l : Cifti2Label)
  | del (key : Int)

def Cifti2LabelTable.applyOp (t : Cifti2LabelTable) :
    LabelTableOp → Except Cifti2Error Cifti2LabelTable
  | .set k v => t.setitem k v
  | .append l => t.append l
  | .del k => t.delitem k

/-- Apply one operation; a raised exception leaves the table unchanged,
as every raise in the source happens before the mutation. -/
def Cifti2LabelTable.step (t : Cifti2LabelTable) (op : LabelTableOp) :
    Cifti2LabelTable :=
  match t.applyOp op with
  | .ok t' => t'
  | .error _ => t

def Cifti2LabelTable.runOps (t : Cifti2LabelTable)
    (ops : List LabelTableOp) : Cifti2LabelTable :=
  ops.foldl Cifti2LabelTable.step t

/-- The LabelTable key invariant: every entry's label carries the entry's
own key. -/
def labelTableInv (t : Cifti2LabelTable) : Prop :=
  ∀ p ∈ t._labels, p.2.key = p.1

theorem Cifti2Label.init_key (k : Int) (lab rv gv bv av : PyVal)
    (l : Cifti2Label) (h : Cifti2Label.init k lab rv gv bv av = .ok l) :
    l.key = k := by
  simp only [Cifti2Label.init, bind, Except.bind] at h
  match h1 : float_01v rv with
  | .error e => rw [h1] at h; simp at h
  | .ok r =>
    rw [h1] at h
    match h2 : float_01v gv with
    | .error e => rw [h2] at h; simp at h
    | .ok g =>
      rw [h2] at h
      match h3 : float_01v bv with
      | .error e => rw [h3] at h; simp at h
      | .ok b =>
        rw [h3] at h
        match h4 : float_01v av with
        | .error e => rw [h4] at h; simp at h
        | .ok a =>
          rw [h4] at h
          injection h with h
          subst h
          rfl

theorem labelFromSeq_key (k : Int) (entries : List PyVal) (l : Cifti2Label)
    (h : labelFromSeq k entries = .ok l) : l.key = k := by
  match entries with
  | [lab, rv, gv, bv, av] => exact Cifti2Label.init_key k lab rv gv bv av l h
  | [] => exact Except.noConfusion h
  | [a] => exact Except.noConfusion h
  | [a, b] => exact Except.noConfusion h
  | [a, b, c] => exact Except.noConfusion h
  | [a, b, c, d] => exact Except.noConfusion h
  | a :: b :: c :: d :: e :: f :: rest => exact Except.noConfusion h

theorem setitem_preserves_inv (t : Cifti2LabelTable) (k : Int)
    (val : LabelSetValue) (t' : Cifti2LabelTable) (hinv : labelTableInv t)
    (h : t.setitem k val = .ok t') : labelTableInv t' := by
  cases val with
  | lbl l =>
    simp only [Cifti2LabelTable.setitem] at h
    split at h
    · exact absurd h (by simp)
    · rename_i hguard
      injection h with h
      subst h
      intro p hp
      rcases mem_odSetInt _ _ _ p hp with h' | h'
      · rw [h']
        exact (not_ne_iff.mp hguard).symm
      · exact hinv p h'
  | seq entries =>
    simp only [Cifti2LabelTable.setitem] at h
    split at h
    · exact absurd h (by simp)
    · match hm : labelFromSeq k entries with
      | .ok l =>
        rw [hm] at h
        injection h with h
        subst h
        intro p hp
        rcases mem_odSetInt _ _ _ p hp with h' | h'
        · rw [h']
          exact labelFromSeq_key k entries l hm
        · exact hinv p h'
      | .error e =>
        rw [hm] at h
        exact absurd h (by simp)

theorem applyOp_preserves_inv (t : Cifti2LabelTable) (op : LabelTableOp)
    (t' : Cifti2LabelTable) (hinv : labelTableInv t)
    (h : t.applyOp op = .ok t') : labelTableInv t' := by
  cases op with
  | set k v => exact setitem_preserves_inv t k v t' hinv h
  | append l => exact setitem_preserves_inv t l.key (.lbl l) t' hinv h
  | del k =>
    simp only [Cifti2LabelTable.applyOp, Cifti2LabelTable.delitem] at h
    split at h
    · rename_i d hdel
      injection h with h
      subst h
      intro p hp
      exact hinv p (mem_odDeleteInt _ _ _ hdel p hp)
    · exact absurd h (by simp)

theorem step_preserves_inv (t : Cifti2LabelTable) (op : LabelTableOp)
    (hinv : labelTableInv t) : labelTableInv (t.step op) := by
  rw [Cifti2LabelTable.step]
  split
  · rename_i t' h
    exact applyOp_preserves_inv t op t' hinv h
  · exact hinv

theorem runOps_preserves_inv (ops : List LabelTableOp) :
    ∀ t, labelTableInv t → labelTableInv (t.runOps ops) := by
  induction ops with
  | nil => intro t h; exact h
  | cons op ops ih =>
    intro t h
    exact ih (t.step op) (step_preserves_inv t op h)

/-- C5: every label table reachable from the empty table by append,
item-assignment and deletion operations satisfies `t[k].key == k` for all
entries; assigning an existing label under a different key fails; assigning
a 5-element sequence builds a fresh label carrying the assigned key; and
assigning a non-length-5 non-label value fails with the value-coercion
error. -/
theorem labeltable_key_invariant (t : Cifti2LabelTable) (k : Int)
    (l : Cifti2Label) (entries : List PyVal) (lab rv gv bv av : PyVal)
    (ops : List LabelTableOp) :
    labelTableInv (Cifti2LabelTable.runOps ⟨[]⟩ ops) ∧
    (l.key ≠ k →
      t.setitem k (.lbl l) =
        .error (.valueError "The key and the label's key must agree")) ∧
    (∀ l', Cifti2Label.init k lab rv gv bv av = .ok l' →
      t.setitem k (.seq [lab, rv, gv, bv, av]) = .ok ⟨odSetInt t._labels k l'⟩ ∧
      l'.key = k) ∧
    (entries.length ≠ 5 →
      t.setitem k (.seq entries) =
        .error (.valueError "Value should be length 5")) := by
  refine ⟨?_, ?_, ?_, ?_⟩
  · exact runOps_preserves_inv ops ⟨[]⟩ (fun p hp => absurd hp (List.not_mem_nil p))
  · intro hne
    simp only [Cifti2LabelTable.setitem]
    rw [if_pos (show k ≠ l.key from fun h => hne h.symm)]
  · intro l' hinit
    refine ⟨?_, Cifti2Label.init_key k lab rv gv bv av l' hinit⟩
    simp only [Cifti2LabelTable.setitem]
    rw [if_neg (by simp)]
    have hseq : labelFromSeq k [lab, rv, gv, bv, av] = .ok l' := hinit
    rw [hseq]
  · intro hlen
    simp only [Cifti2LabelTable.setitem]
    rw [if_pos hlen]

/-- Witness for C5 at concrete inputs: a run of a sequence assignment, an
append and a deletion from the empty table; a mismatched-key label
assignment; the spec's 5-element sequence assignment; and a length-1
assignment. -/
theorem labeltable_key_invariant_witness :
    labelTableInv (Cifti2LabelTable.runOps ⟨[]⟩
      [.set 5 (.seq [.str "name", .num 0, .num 1, .num 0, .num 1]),
       .append ⟨2, "b", 0, 0, 0, 0⟩, .del 5]) ∧
    Cifti2LabelTable.setitem ⟨[]⟩ 5 (.lbl ⟨3, "c", 0, 0, 0, 0⟩) =
      .error (.valueError "The key and the label's key must agree") ∧
    (Cifti2LabelTable.setitem ⟨[]⟩ 5
        (.seq [.str "name", .num 0, .num 1, .num 0, .num 1]) =
      .ok ⟨odSetInt [] 5 ⟨5, "name", 0, 1, 0, 1⟩⟩ ∧
      (Cifti2Label.mk 5 "name" 0 1 0 1).key = 5) ∧
    Cifti2LabelTable.setitem ⟨[]⟩ 5 (.seq [.str "x"]) =
      .error (.valueError "Value should be length 5") := by
  have h := labeltable_key_invariant ⟨[]⟩ 5 ⟨3, "c", 0, 0, 0, 0⟩ [.str "x"]
    (.str "name") (.num 0) (.num 1) (.num 0) (.num 1)
    [.set 5 (.seq [.str "name", .num 0, .num 1, .num 0, .num 1]),
     .append ⟨2, "b", 0, 0, 0, 0⟩, .del 5]
  exact ⟨h.1, h.2.1 (by decide), h.2.2.1 ⟨5, "name", 0, 1, 0, 1⟩ rfl,
    h.2.2.2 (by decide)⟩

/-- Model of `Cifti2VoxelIndicesIJK` (source lines 361-432): a mutable sequence of
integer triples. -/
structure Cifti2VoxelIndicesIJK where
  _indices : List (List Int)
deriving DecidableEq

/-- Model of `Cifti2VoxelIndicesIJK.insert` (source lines 414-423): the value is
coerced to a list of ints (already `Int` here) and must be a triple;
Python's `list.insert` clamps the position into range. -/
def Cifti2VoxelIndicesIJK.insert (x : Cifti2VoxelIndicesIJK) (index : Nat)
    (value : List Int) : Except Cifti2Error Cifti2VoxelIndicesIJK :=
  if value.length ≠ 3 then .error (.valueError "value must be a triple of int")
  else .ok ⟨x._indices.take index ++ value :: x._indices.drop index⟩

/-- Model of `Cifti2VoxelIndicesIJK.__init__` (source lines 371-374): start empty and
`extend`, i.e. append (insert at the end) each row in turn. -/
def Cifti2VoxelIndicesIJK.init (indices : List (List Int)) :
    Except Cifti2Error Cifti2VoxelIndicesIJK :=
  indices.foldlM (fun x row => x.insert x._indices.length row) ⟨[]⟩

/-- Model of `Cifti2VoxelIndicesIJK._to_xml_element` (source lines 425-432). -/
def Cifti2VoxelIndicesIJK.toXmlElement (x : Cifti2VoxelIndicesIJK) :
    Except Cifti2Error Element :=
  if x._indices.length = 0 then
    .error (.headerError "VoxelIndicesIJK element require an index table")
  else
    .ok { tag := "VoxelIndicesIJK"
        , attrib := []
        , text := some (String.intercalate "\n"
            (x._indices.map (fun row =>
              String.intercalate " " (row.map (fun v => pyIntStr v)))))
        , children := [] }

/-- C7: a `VoxelIndicesIJK` built from `[[0,0,0],[1,1,1]]` serializes with
text `"0 0 0\n1 1 1"`; in general a non-empty sequence serializes its rows
joined by newlines with each row's three integers joined by single spaces,
and an empty sequence fails with a `HeaderError`. -/
theorem voxel_indices_serialization (x : Cifti2VoxelIndicesIJK) :
    (∃ x0, Cifti2VoxelIndicesIJK.init [[0, 0, 0], [1, 1, 1]] = .ok x0 ∧
      ∃ el, x0.toXmlElement = .ok el ∧ el.text = some "0 0 0\n1 1 1") ∧
    (x._indices ≠ [] →
      ∃ el, x.toXmlElement = .ok el ∧
        el.text = some (String.intercalate "\n"
          (x._indices.map (fun row =>
            String.intercalate " " (row.map (fun v => pyIntStr v)))))) ∧
    (x._indices = [] →
      x.toXmlElement =
        .error (.headerError "VoxelIndicesIJK element require an index table")) := by
  refine ⟨⟨⟨[[0, 0, 0], [1, 1, 1]]⟩, rfl, ⟨_, rfl, rfl⟩⟩, ?_, ?_⟩
  · intro h
    rw [Cifti2VoxelIndicesIJK.toXmlElement,
      if_neg (fun hl => h (List.length_eq_zero.mp hl))]
    exact ⟨_, rfl, rfl⟩
  · intro h
    rw [Cifti2VoxelIndicesIJK.toXmlElement, if_pos (by simp [h])]

/-- Witness for C7 at concrete inputs. -/
theorem voxel_indices_serialization_witness :
    (∃ el, (Cifti2VoxelIndicesIJK.mk [[2, 3, 4]]).toXmlElement = .ok el ∧
      el.text = some (String.intercalate "\n"
        ([[2, 3, 4]].map (fun row =>
          String.intercalate " " (row.map (fun v => pyIntStr v)))))) ∧
    (Cifti2VoxelIndicesIJK.mk []).toXmlElement =
      .error (.headerError "VoxelIndicesIJK element require an index table") :=
  ⟨(voxel_indices_serialization ⟨[[2, 3, 4]]⟩).2.1 (by simp),
   (voxel_indices_serialization ⟨[]⟩).2.2 rfl⟩

/-- Model of `Cifti2Surface` (source lines 333-358). -/
structure Cifti2Surface where
  brain_structure : Option String
  surface_number_of_vertices : Option Int
deriving DecidableEq

/-- Model of `Cifti2Surface._to_xml_element` (source lines 352-358): only a null
`brain_structure` is rejected; `SurfaceNumberOfVertices` is always emitted
by stringifying the current value, `"None"` included. -/
def Cifti2Surface.toXmlElement (s : Cifti2Surface) : Except Cifti2Error Element :=
  match s.brain_structure with
  | none => .error (.headerError "Surface element requires at least 1 BrainStructure")
  | some bs =>
    .ok { tag := "Surface"
        , attrib := [("BrainStructure", bs),
            ("SurfaceNumberOfVertices", pyOptIntStr s.surface_number_of_vertices)]
        , text := none
        , children := [] }

/-- Model of `Cifti2VertexIndices` (source lines 606-647). -/
structure Cifti2VertexIndices where
  _indices : List Int
deriving DecidableEq

/-- Model of `Cifti2VertexIndices._to_xml_element` (source lines 641-647). -/
def Cifti2VertexIndices.toXmlElement (x : Cifti2VertexIndices) :
    Except Cifti2Error Element :=
  if x._indices.length = 0 then
    .error (.headerError "VertexIndices element requires indices")
  else
    .ok { tag := "VertexIndices"
        , attrib := []
        , text := some (String.intercalate " " (x._indices.map pyIntStr))
        , children := [] }

/-- Model of `Cifti2BrainModel` (source lines 650-714). -/
structure Cifti2BrainModel where
  index_offset : Option Int
  index_count : Option Int
  model_type : Option String
  brain_structure : Option String
  surface_number_of_vertices : Option Int
  voxel_indices_ijk : Option Cifti2VoxelIndicesIJK
  vertex_indices : Option Cifti2VertexIndices
deriving DecidableEq

/-- An attribute emitted only when the value is set (non-`None`). -/
def optAttr (k : String) : Option String → List (String × String)
  | none => []
  | some v => [(k, v)]

/-- The attribute list of `Cifti2BrainModel._to_xml_element` (source lines
704-709): each of the five attributes is emitted only if non-null, in the
fixed order. -/
def Cifti2BrainModel.attribList (b : Cifti2BrainModel) : List (String × String) :=
  optAttr "IndexOffset" (b.index_offset.map pyIntStr) ++
  optAttr "IndexCount" (b.index_count.map pyIntStr) ++
  optAttr "ModelType" b.model_type ++
  optAttr "BrainStructure" b.brain_structure ++
  optAttr "SurfaceNumberOfVertices" (b.surface_number_of_vertices.map pyIntStr)

/-- The optional `VoxelIndicesIJK` child of a BrainModel: appended only when
the sequence is truthy (`if self.voxel_indices_ijk:`, false for `None` and
for an empty sequence). -/
def voxelChild : Option Cifti2VoxelIndicesIJK → Except Cifti2Error (List Element)
  | none => .ok []
  | some v =>
    if v._indices.length ≠ 0 then
      match v.toXmlElement with
      | .ok e => .ok [e]
      | .error err => .error err
    else .ok []

/-- The optional `VertexIndices` child of a BrainModel, same truthiness
gate. -/
def vertexChild : Option Cifti2VertexIndices → Except Cifti2Error (List Element)
  | none => .ok []
  | some w =>
    if w._indices.length ≠ 0 then
      match w.toXmlElement with
      | .ok e => .ok [e]
      | .error err => .error err
    else .ok []

/-- Model of `Cifti2BrainModel._to_xml_element` (source lines 701-714). -/
def Cifti2BrainModel.toXmlElement (b : Cifti2BrainModel) :
    Except Cifti2Error Element :=
  match voxelChild b.voxel_indices_ijk with
  | .error e => .error e
  | .ok kidsV =>
    match vertexChild b.vertex_indices with
    | .error e => .error e
    | .ok kidsW =>
      .ok { tag := "BrainModel", attrib := b.attribList, text := none
          , children := kidsV ++ kidsW }

theorem mem_optAttr (k : String) (o : Option String) (p : String × String)
    (h : p ∈ optAttr k o) : p.1 = k := by
  cases o with
  | none => simp [optAttr] at h
  | some v =>
    simp only [optAttr, List.mem_singleton] at h
    rw [h]

/-- C10: `Cifti2Surface` serialization always emits the
`SurfaceNumberOfVertices` attribute, stringifying the current value even
when unset (yielding the literal `"None"`), while `Cifti2BrainModel`
serialization omits its unset attributes; only a null `brain_structure` is
rejected by the Surface. -/
theorem surface_always_emits_vertex_count (s : Cifti2Surface) (bs : String)
    (b : Cifti2BrainModel) (el : Element) :
    (s.brain_structure = none →
      s.toXmlElement =
        .error (.headerError "Surface element requires at least 1 BrainStructure")) ∧
    (s.brain_structure = some bs →
      ∃ el', s.toXmlElement = .ok el' ∧
        ("SurfaceNumberOfVertices",
          pyOptIntStr s.surface_number_of_vertices) ∈ el'.attrib ∧
        (s.surface_number_of_vertices = none →
          ("SurfaceNumberOfVertices", "None") ∈ el'.attrib)) ∧
    (b.surface_number_of_vertices = none → b.toXmlElement = .ok el →
      ∀ val, ("SurfaceNumberOfVertices", val) ∉ el.attrib) := by
  refine ⟨?_, ?_, ?_⟩
  · intro h
    simp [Cifti2Surface.toXmlElement, h]
  · intro h
    refine ⟨Element.mk "Surface"
      [("BrainStructure", bs),
        ("SurfaceNumberOfVertices", pyOptIntStr s.surface_number_of_vertices)]
      none [], ?_, ?_, ?_⟩
    · simp [Cifti2Surface.toXmlElement, h]
    · simp
    · intro hnone
      simp [hnone, pyOptIntStr]
  · intro hsnv h val hmem
    have hattr : el.attrib = b.attribList := by
      rw [Cifti2BrainModel.toXmlElement] at h
      split at h
      · exact absurd h (by simp)
      · split at h
        · exact absurd h (by simp)
        · injection h with h
          rw [← h]
    rw [hattr, Cifti2BrainModel.attribList, hsnv] at hmem
    simp only [Option.map_none, List.mem_append] at hmem
    rcases hmem with ((((hm | hm) | hm) | hm) | hm)
    · exact absurd (show ("SurfaceNumberOfVertices" : String) = "IndexOffset" from
        mem_optAttr _ _ _ hm) (by decide)
    · exact absurd (show ("SurfaceNumberOfVertices" : String) = "IndexCount" from
        mem_optAttr _ _ _ hm) (by decide)
    · exact absurd (show ("SurfaceNumberOfVertices" : String) = "ModelType" from
        mem_optAttr _ _ _ hm) (by decide)
    · exact absurd (show ("SurfaceNumberOfVertices" : String) = "BrainStructure" from
        mem_optAttr _ _ _ hm) (by decide)
    · simp [optAttr] at hm

/-- Witness for C10 at concrete inputs: a Surface with a structure but no
vertex count, a Surface with no structure, and a BrainModel with every
field unset. -/
theorem surface_always_emits_vertex_count_witness :
    (Cifti2Surface.mk none (some 3)).toXmlElement =
      .error (.headerError "Surface element requires at least 1 BrainStructure") ∧
    (∃ el', (Cifti2Surface.mk (some "CIFTI_STRUCTURE_CORTEX_LEFT") none).toXmlElement =
        .ok el' ∧
      ("SurfaceNumberOfVertices", pyOptIntStr (none : Option Int)) ∈ el'.attrib ∧
      ((none : Option Int) = none →
        ("SurfaceNumberOfVertices", "None") ∈ el'.attrib)) ∧
    (∀ val, ("SurfaceNumberOfVertices", val) ∉
      (Element.mk "BrainModel" [] none []).attrib) := by
  have h1 := surface_always_emits_vertex_count (Cifti2Surface.mk none (some 3))
    "CIFTI_STRUCTURE_CORTEX_LEFT"
    (Cifti2BrainModel.mk none none none none none none none)
    (Element.mk "BrainModel" [] none [])
  have h2 := surface_always_emits_vertex_count
    (Cifti2Surface.mk (some "CIFTI_STRUCTURE_CORTEX_LEFT") none)
    "CIFTI_STRUCTURE_CORTEX_LEFT"
    (Cifti2BrainModel.mk none none none none none none none)
    (Element.mk "BrainModel" [] none [])
  exact ⟨h1.1 rfl, h2.2.1 rfl, h2.2.2 rfl rfl⟩

/-- Model of `Cifti2TransformationMatrixVoxelIndicesIJKtoXYZ` (source lines 545-574). -/
structure Cifti2TransformationMatrixVoxelIndicesIJKtoXYZ where
  meter_exponent : Option Int
  matrix : Option (List (List ℚ))
deriving DecidableEq

/-- Python's `'{:.10f}'.format(x)`: fixed-point rendering with 10
fractional digits.  Ties are rounded half-up on the rational here (CPython
rounds the underlying binary double); no claim depends on the produced
text. -/
def pyFixed10 (q : ℚ) : String :=
  let s : ℚ := |q| * 10000000000 + 1 / 2
  let scaled : Int := s.num.fdiv s.den
  let ip := scaled / 10000000000
  let fp := (scaled % 10000000000).toNat
  let fpStr := toString fp
  let pad := String.mk (List.replicate (10 - fpStr.length) '0')
  (if q < 0 then "-" else "") ++ toString ip ++ "." ++ pad ++ fpStr

/-- Model of `Cifti2TransformationMatrixVoxelIndicesIJKtoXYZ._to_xml_element` (source
lines 565-574): a null matrix raises a `HeaderError`; the `MeterExponent`
attribute stringifies the current value, `"None"` included. -/
def Cifti2TransformationMatrixVoxelIndicesIJKtoXYZ.toXmlElement
    (t : Cifti2TransformationMatrixVoxelIndicesIJKtoXYZ) :
    Except Cifti2Error Element :=
  match t.matrix with
  | none =>
    .error (.headerError
      "TransformationMatrixVoxelIndicesIJKtoXYZ element requires a matrix")
  | some mat =>
    .ok { tag := "TransformationMatrixVoxelIndicesIJKtoXYZ"
        , attrib := [("MeterExponent", pyOptIntStr t.meter_exponent)]
        , text := some (String.intercalate "\n"
            (mat.map (fun row => String.intercalate " " (row.map pyFixed10))))
        , children := [] }

/-- Model of `Cifti2Volume` (source lines 577-603). -/
structure Cifti2Volume where
  volume_dimensions : Option (List Int)
  transformation_matrix_voxel_indices_ijk_to_xyz :
    Option Cifti2TransformationMatrixVoxelIndicesIJKtoXYZ
deriving DecidableEq

/-- Model of `Cifti2Volume._to_xml_element` (source lines 595-603): only
`volume_dimensions` is validated (with a `HeaderError`); a null transform is
dereferenced unchecked, which in Python raises `AttributeError`. -/
def Cifti2Volume.toXmlElement (v : Cifti2Volume) : Except Cifti2Error Element :=
  match v.volume_dimensions with
  | none => .error (.headerError "Volume element requires dimensions")
  | some dims =>
    match v.transformation_matrix_voxel_indices_ijk_to_xyz with
    | none => .error (.attributeError "NoneType object has no attribute _to_xml_element")
    | some t =>
      match t.toXmlElement with
      | .error e => .error e
      | .ok te =>
        .ok { tag := "Volume"
            , attrib := [("VolumeDimensions",
                String.intercalate "," (dims.map pyIntStr))]
            , text := none
            , children := [te] }

/-- Whether a raised error is a `CIFTI2HeaderError`. -/
def Cifti2Error.isHeaderError : Cifti2Error → Bool
  | .headerError _ => true
  | _ => false

/-- Whether a serialization outcome is a raised `CIFTI2HeaderError`. -/
def raisedHeaderError : Except Cifti2Error Element → Bool
  | .error e => e.isHeaderError
  | .ok _ => false

/-- C4 counterexample: a Volume with dimensions `[2,3,4]` but a null
transform fails with an attribute-access error on `None`, not with a
`HeaderError`. -/
theorem volume_null_transform_not_header_error :
    Cifti2Volume.toXmlElement ⟨some [2, 3, 4], none⟩ =
      .error (.attributeError "NoneType object has no attribute _to_xml_element") ∧
    raisedHeaderError (Cifti2Volume.toXmlElement ⟨some [2, 3, 4], none⟩) = false :=
  ⟨rfl, rfl⟩

/-- C4 amended: a null `volume_dimensions` raises `HeaderError`; a null
transform is not validated, and serialization fails with an
attribute-access error (`AttributeError`) instead of a `HeaderError`. -/
theorem volume_serialization_required_fields (v : Cifti2Volume) :
    (v.volume_dimensions = none →
      v.toXmlElement = .error (.headerError "Volume element requires dimensions")) ∧
    (∀ dims, v.volume_dimensions = some dims →
      v.transformation_matrix_voxel_indices_ijk_to_xyz = none →
      v.toXmlElement =
        .error (.attributeError "NoneType object has no attribute _to_xml_element")) := by
  constructor
  · intro h
    simp [Cifti2Volume.toXmlElement, h]
  · intro dims h1 h2
    simp [Cifti2Volume.toXmlElement, h1, h2]

/-- Witness for the amended C4 at concrete inputs. -/
theorem volume_serialization_required_fields_witness :
    Cifti2Volume.toXmlElement ⟨none, none⟩ =
      .error (.headerError "Volume element requires dimensions") ∧
    Cifti2Volume.toXmlElement ⟨some [2, 3, 4], none⟩ =
      .error (.attributeError "NoneType object has no attribute _to_xml_element") :=
  ⟨(volume_serialization_required_fields ⟨none, none⟩).1 rfl,
   (volume_serialization_required_fields ⟨some [2, 3, 4], none⟩).2 [2, 3, 4] rfl rfl⟩

/-- Model of `Cifti2NamedMap` (source lines 266-330). -/
structure Cifti2NamedMap where
  map_name : Option String
  metadata : Option Cifti2MetaData
  label_table : Option Cifti2LabelTable
deriving DecidableEq

/-- Model of `Cifti2Vertices` (source lines 435-489). -/
structure Cifti2Vertices where
  brain_structure : Option String
  _vertices : List Int
deriving DecidableEq

/-- Model of `Cifti2Parcel` (source lines 492-542). -/
structure Cifti2Parcel where
  name : Option String
  voxel_indices_ijk : Option Cifti2VoxelIndicesIJK
  vertices : List Cifti2Vertices
deriving DecidableEq

/-- One element of the heterogeneous `_maps` sequence of a
`Cifti2MatrixIndicesMap`: the runtime class of the Python object becomes a
tagged union. -/
inductive MIMElem where
  | namedMap (m : Cifti2NamedMap)
  | surface (s : Cifti2Surface)
  | parcel (p : Cifti2Parcel)
  | brainModel (b : Cifti2BrainModel)
  | volume (v : Cifti2Volume)
deriving DecidableEq

/-- Model of `isinstance(x, Cifti2Volume)`. -/
def MIMElem.isVolume : MIMElem → Bool
  | .volume _ => true
  | _ => false

/-- Model of `Cifti2MatrixIndicesMap` (source lines 717-866). -/
structure Cifti2MatrixIndicesMap where
  applies_to_matrix_dimension : Option (List Int)
  indices_map_to_data_type : Option String
  number_of_series_points : Option Int
  series_exponent : Option Int
  series_start : Option ℚ
  series_step : Option ℚ
  series_unit : Option String
  _maps : List MIMElem
deriving DecidableEq

/-- The scan of the `volume` property (source lines 814-819): the first
Volume element, or `None`. -/
def findVol : List MIMElem → Option Cifti2Volume
  | [] => none
  | .volume v :: _ => some v
  | _ :: rest => findVol rest

/-- The `volume` property (source lines 814-819). -/
def Cifti2MatrixIndicesMap.volume (m : Cifti2MatrixIndicesMap) :
    Option Cifti2Volume :=
  findVol m._maps

/-- The search loop shared by the `volume` setter and deleter (source lines
825-827 and 835-837): position of the first Volume element. -/
def findVolIdx : List MIMElem → Option Nat
  | [] => none
  | e :: rest => if e.isVolume then some 0 else (findVolIdx rest).map (· + 1)

/-- Model of `Cifti2MatrixIndicesMap.__setitem__` (source lines 776-785): assigning a
Volume over a non-Volume position is rejected when a Volume is already
present; an out-of-range index raises `IndexError` before any mutation
(negative indices are not modelled). -/
def Cifti2MatrixIndicesMap.setitem (m : Cifti2MatrixIndicesMap) (index : Nat)
    (value : MIMElem) : Except Cifti2Error Cifti2MatrixIndicesMap :=
  if h : index < m._maps.length then
    if value.isVolume && m.volume.isSome && !(m._maps.get ⟨index, h⟩).isVolume then
      .error (.headerError "Only one Volume can be in a MatrixIndicesMap")
    else .ok { m with _maps := m._maps.set index value }
  else .error (.indexError "list assignment index out of range")

/-- Model of `Cifti2MatrixIndicesMap.insert` (source lines 787-794): inserting a
Volume is rejected whenever one is present; Python's `list.insert` clamps
the position into range. -/
def Cifti2MatrixIndicesMap.insert (m : Cifti2MatrixIndicesMap) (index : Nat)
    (value : MIMElem) : Except Cifti2Error Cifti2MatrixIndicesMap :=
  if value.isVolume && m.volume.isSome then
    .error (.headerError "Only one Volume can be in a MatrixIndicesMap")
  else .ok { m with _maps := m._maps.take index ++ value :: m._maps.drop index }

/-- Model of `MutableSequence.append`: insert at the end. -/
def Cifti2MatrixIndicesMap.append (m : Cifti2MatrixIndicesMap)
    (value : MIMElem) : Except Cifti2Error Cifti2MatrixIndicesMap :=
  m.insert m._maps.length value

/-- Model of `Cifti2MatrixIndicesMap.__delitem__` (source lines 770-771). -/
def Cifti2MatrixIndicesMap.delitem (m : Cifti2MatrixIndicesMap)
    (index : Nat) : Except Cifti2Error Cifti2MatrixIndicesMap :=
  if index < m._maps.length then .ok { m with _maps := m._maps.eraseIdx index }
  else .error (.indexError "list assignment index out of range")

/-- The `volume` property setter (source lines 821-831): replace the first
Volume in place through `__setitem__`, or append when none exists.  The
non-Volume-argument `ValueError` branch is unrepresentable here because the
argument is typed. -/
def Cifti2MatrixIndicesMap.setVolume (m : Cifti2MatrixIndicesMap)
    (v : Cifti2Volume) : Except Cifti2Error Cifti2MatrixIndicesMap :=
  match findVolIdx m._maps with
  | none => m.append (.volume v)
  | some i => m.setitem i (.volume v)

/-- The `volume` property deleter (source lines 833-840). -/
def Cifti2MatrixIndicesMap.delVolume (m : Cifti2MatrixIndicesMap) :
    Except Cifti2Error Cifti2MatrixIndicesMap :=
  match findVolIdx m._maps with
  | none => .error (.valueError "No Cifti2Volume element")
  | some i => m.delitem i

/-- Model of `Cifti2MatrixIndicesMap.__init__` (source lines 747-765): store the
scalar fields and append each element of `maps` in turn. -/
def Cifti2MatrixIndicesMap.init (applies : Option (List Int))
    (dtype : Option String) (nsp : Option Int) (sexp : Option Int)
    (sstart sstep : Option ℚ) (sunit : Option String) (maps : List MIMElem) :
    Except Cifti2Error Cifti2MatrixIndicesMap :=
  maps.foldlM (fun m e => m.append e)
    { applies_to_matrix_dimension := applies
    , indices_map_to_data_type := dtype
    , number_of_series_points := nsp
    , series_exponent := sexp
    , series_start := sstart
    , series_step := sstep
    , series_unit := sunit
    , _maps := [] }

/-- A mutation of a `Cifti2MatrixIndicesMap`. -/
inductive MIMOp where
  | set (index : Nat) (value : MIMElem)
  | ins (index : Nat) (value : MIMElem)
  | setVol (v : Cifti2Volume)
  | delVol
  | del (index : Nat)

def Cifti2MatrixIndicesMap.applyOp (m : Cifti2MatrixIndicesMap) :
    MIMOp → Except Cifti2Error Cifti2MatrixIndicesMap
  | .set i v => m.setitem i v
  | .ins i v => m.insert i v
  | .setVol v => m.setVolume v
  | .delVol => m.delVolume
  | .del i => m.delitem i

/-- Apply one operation; a raised exception leaves the object unchanged, as
every raise in the source happens before the mutation. -/
def Cifti2MatrixIndicesMap.step (m : Cifti2MatrixIndicesMap) (op : MIMOp) :
    Cifti2MatrixIndicesMap :=
  match m.applyOp op with
  | .ok m2 => m2
  | .error _ => m

def Cifti2MatrixIndicesMap.runOps (m : Cifti2MatrixIndicesMap)
    (ops : List MIMOp) : Cifti2MatrixIndicesMap :=
  ops.foldl Cifti2MatrixIndicesMap.step m

/-- Number of Volume elements in the sequence. -/
def volumeCount (m : Cifti2MatrixIndicesMap) : Nat :=
  m._maps.countP MIMElem.isVolume

theorem findVol_none_iff (l : List MIMElem) :
    findVol l = none ↔ l.countP MIMElem.isVolume = 0 := by
  induction l with
  | nil => simp [findVol]
  | cons e rest ih =>
    cases e with
    | namedMap x => simpa [findVol, List.countP_cons, MIMElem.isVolume] using ih
    | surface x => simpa [findVol, List.countP_cons, MIMElem.isVolume] using ih
    | parcel x => simpa [findVol, List.countP_cons, MIMElem.isVolume] using ih
    | brainModel x => simpa [findVol, List.countP_cons, MIMElem.isVolume] using ih
    | volume v => simp [findVol, List.countP_cons, MIMElem.isVolume]

theorem volume_eq_findVol (m : Cifti2MatrixIndicesMap) :
    m.volume = findVol m._maps := rfl

theorem volume_isSome_false_count (m : Cifti2MatrixIndicesMap)
    (h : m.volume.isSome = false) : volumeCount m = 0 := by
  rw [volume_eq_findVol] at h
  match hf : findVol m._maps with
  | some v => rw [hf] at h; simp at h
  | none => exact (findVol_none_iff m._maps).mp hf

theorem countP_set_add (l : List MIMElem) (i : Nat) (a : MIMElem)
    (h : i < l.length) :
    (l.set i a).countP MIMElem.isVolume +
      (if (l.get ⟨i, h⟩).isVolume then 1 else 0) =
    l.countP MIMElem.isVolume + (if a.isVolume then 1 else 0) := by
  induction l generalizing i with
  | nil => simp at h
  | cons e rest ih =>
    cases i with
    | zero =>
      simp only [List.set, List.countP_cons, List.get]
      omega
    | succ j =>
      have hj : j < rest.length := by simpa using h
      have := ih j hj
      simp only [List.set, List.countP_cons, List.get]
      omega

theorem countP_insertAt (l : List MIMElem) (i : Nat) (a : MIMElem) :
    (l.take i ++ a :: l.drop i).countP MIMElem.isVolume =
      l.countP MIMElem.isVolume + (if a.isVolume then 1 else 0) := by
  have hsplit : (l.take i).countP MIMElem.isVolume +
      (l.drop i).countP MIMElem.isVolume = l.countP MIMElem.isVolume := by
    rw [← List.countP_append, List.take_append_drop]
  rw [List.countP_append, List.countP_cons]
  omega

theorem countP_eraseIdx_le (l : List MIMElem) (i : Nat) :
    (l.eraseIdx i).countP MIMElem.isVolume ≤ l.countP MIMElem.isVolume := by
  induction l generalizing i with
  | nil => simp [List.eraseIdx]
  | cons e rest ih =>
    cases i with
    | zero =>
      simp only [List.eraseIdx, List.countP_cons]
      omega
    | succ j =>
      have := ih j
      simp only [List.eraseIdx, List.countP_cons]
      omega

theorem setitem_count_le (m : Cifti2MatrixIndicesMap) (i : Nat) (v : MIMElem)
    (m' : Cifti2MatrixIndicesMap) (hle : volumeCount m ≤ 1)
    (h : m.setitem i v = .ok m') : volumeCount m' ≤ 1 := by
  rw [Cifti2MatrixIndicesMap.setitem] at h
  split at h
  · rename_i hlen
    split at h
    · exact absurd h (by simp)
    · rename_i hguard
      injection h with h
      subst h
      have hkey := countP_set_add m._maps i v hlen
      unfold volumeCount at hle ⊢
      dsimp only
      cases hv : v.isVolume with
      | false =>
        rw [hv, if_neg Bool.false_ne_true] at hkey
        cases hold : (m._maps.get ⟨i, hlen⟩).isVolume with
        | false => rw [hold, if_neg Bool.false_ne_true] at hkey; omega
        | true => rw [hold, if_pos rfl] at hkey; omega
      | true =>
        rw [hv, if_pos rfl] at hkey
        cases hold : (m._maps.get ⟨i, hlen⟩).isVolume with
        | true => rw [hold, if_pos rfl] at hkey; omega
        | false =>
          cases hsome : m.volume.isSome with
          | false =>
            have hz := volume_isSome_false_count m hsome
            unfold volumeCount at hz
            rw [hold, if_neg Bool.false_ne_true] at hkey
            omega
          | true => exact absurd (by rw [hv, hsome, hold]; rfl :
              (v.isVolume && m.volume.isSome &&
                !(m._maps.get ⟨i, hlen⟩).isVolume) = true) hguard
  · exact absurd h (by simp)

theorem insert_count_le (m : Cifti2MatrixIndicesMap) (i : Nat) (v : MIMElem)
    (m' : Cifti2MatrixIndicesMap) (hle : volumeCount m ≤ 1)
    (h : m.insert i v = .ok m') : volumeCount m' ≤ 1 := by
  rw [Cifti2MatrixIndicesMap.insert] at h
  split at h
  · exact absurd h (by simp)
  · rename_i hguard
    injection h with h
    subst h
    have hkey := countP_insertAt m._maps i v
    unfold volumeCount at hle ⊢
    dsimp only
    cases hv : v.isVolume with
    | false =>
      rw [hv, if_neg Bool.false_ne_true] at hkey
      omega
    | true =>
      cases hsome : m.volume.isSome with
      | true => exact absurd (by rw [hv, hsome]; rfl :
          (v.isVolume && m.volume.isSome) = true) hguard
      | false =>
        have hz := volume_isSome_false_count m hsome
        unfold volumeCount at hz
        rw [hv, if_pos rfl] at hkey
        omega

theorem delitem_count_le (m : Cifti2MatrixIndicesMap) (i : Nat)
    (m' : Cifti2MatrixIndicesMap) (hle : volumeCount m ≤ 1)
    (h : m.delitem i = .ok m') : volumeCount m' ≤ 1 := by
  rw [Cifti2MatrixIndicesMap.delitem] at h
  split at h
  · injection h with h
    subst h
    unfold volumeCount at hle ⊢
    dsimp only
    exact le_trans (countP_eraseIdx_le m._maps i) hle
  · exact absurd h (by simp)

theorem applyOp_count_le (m : Cifti2MatrixIndicesMap) (op : MIMOp)
    (m' : Cifti2MatrixIndicesMap) (hle : volumeCount m ≤ 1)
    (h : m.applyOp op = .ok m') : volumeCount m' ≤ 1 := by
  cases op with
  | set i v => exact setitem_count_le m i v m' hle h
  | ins i v => exact insert_count_le m i v m' hle h
  | setVol v =>
    simp only [Cifti2MatrixIndicesMap.applyOp, Cifti2MatrixIndicesMap.setVolume] at h
    split at h
    · exact insert_count_le m m._maps.length (.volume v) m' hle h
    · rename_i i hfind
      exact setitem_count_le m i (.volume v) m' hle h
  | delVol =>
    simp only [Cifti2MatrixIndicesMap.applyOp, Cifti2MatrixIndicesMap.delVolume] at h
    split at h
    · exact absurd h (by simp)
    · rename_i i hfind
      exact delitem_count_le m i m' hle h
  | del i => exact delitem_count_le m i m' hle h

theorem step_count_le (m : Cifti2MatrixIndicesMap) (op : MIMOp)
    (hle : volumeCount m ≤ 1) : volumeCount (m.step op) ≤ 1 := by
  rw [Cifti2MatrixIndicesMap.step]
  split
  · rename_i m' h
    exact applyOp_count_le m op m' hle h
  · exact hle

theorem runOps_count_le (ops : List MIMOp) :
    ∀ m, volumeCount m ≤ 1 → volumeCount (m.runOps ops) ≤ 1 := by
  induction ops with
  | nil => intro m h; exact h
  | cons op ops ih =>
    intro m h
    exact ih (m.step op) (step_count_le m op h)

theorem foldl_append_count_le (maps : List MIMElem) :
    ∀ m m', volumeCount m ≤ 1 →
    (maps.foldlM (fun acc e => acc.append e) m = .ok m') →
    volumeCount m' ≤ 1 := by
  induction maps with
  | nil =>
    intro m m' hle h
    have hm : m = m' := by simpa [List.foldlM, pure, Except.pure] using h
    exact hm ▸ hle
  | cons e rest ih =>
    intro m m' hle h
    rw [List.foldlM_cons] at h
    match happ : m.append e with
    | .error err =>
      rw [happ] at h
      exact absurd h (by simp [Bind.bind, Except.bind])
    | .ok macc =>
      rw [happ] at h
      simp only [Bind.bind, Except.bind] at h
      exact ih macc m'
        (insert_count_le m m._maps.length e macc hle happ) h

/-- C1: every `Cifti2MatrixIndicesMap` reachable by construction from a maps
list followed by any sequence of insert, positional overwrite, volume
setter/deleter and deletion operations holds at most one Volume; inserting a
Volume while one is present fails with a `HeaderError`; overwriting a
non-Volume position with a Volume while a Volume exists fails with a
`HeaderError`; overwriting the position currently holding a Volume with a
new Volume succeeds. -/
theorem mim_at_most_one_volume
    (applies : Option (List Int)) (dtype : Option String)
    (nsp sexp : Option Int) (sstart sstep : Option ℚ) (sunit : Option String)
    (maps : List MIMElem) (m0 : Cifti2MatrixIndicesMap) (ops : List MIMOp)
    (m : Cifti2MatrixIndicesMap) (i : Nat) (hi : i < m._maps.length)
    (v : Cifti2Volume) :
    (Cifti2MatrixIndicesMap.init applies dtype nsp sexp sstart sstep sunit maps =
        .ok m0 →
      volumeCount (m0.runOps ops) ≤ 1) ∧
    (m.volume.isSome = true →
      m.insert i (.volume v) =
        .error (.headerError "Only one Volume can be in a MatrixIndicesMap")) ∧
    (m.volume.isSome = true → (m._maps.get ⟨i, hi⟩).isVolume = false →
      m.setitem i (.volume v) =
        .error (.headerError "Only one Volume can be in a MatrixIndicesMap")) ∧
    ((m._maps.get ⟨i, hi⟩).isVolume = true →
      m.setitem i (.volume v) =
        .ok { m with _maps := m._maps.set i (.volume v) }) := by
  refine ⟨?_, ?_, ?_, ?_⟩
  · intro hinit
    refine runOps_count_le ops m0 ?_
    exact foldl_append_count_le maps _ m0 (by simp [volumeCount]) hinit
  · intro hsome
    rw [Cifti2MatrixIndicesMap.insert,
      if_pos (by rw [hsome]; rfl : (MIMElem.isVolume (.volume v) && m.volume.isSome) = true)]
  · intro hsome hold
    rw [Cifti2MatrixIndicesMap.setitem, dif_pos hi,
      if_pos (by rw [hsome, hold]; rfl :
        (MIMElem.isVolume (.volume v) && m.volume.isSome &&
          !(m._maps.get ⟨i, hi⟩).isVolume) = true)]
  · intro hold
    rw [Cifti2MatrixIndicesMap.setitem, dif_pos hi,
      if_neg (by rw [hold]; simp :
        ¬ (MIMElem.isVolume (.volume v) && m.volume.isSome &&
          !(m._maps.get ⟨i, hi⟩).isVolume) = true)]

/-- Witness for C1 at concrete inputs: a map constructed around one Volume,
run through an insert, a volume-setter replacement and a volume deletion;
and the three guarded operations on a two-element map holding a Volume at
position 0 and a NamedMap at position 1. -/
theorem mim_at_most_one_volume_witness :
    volumeCount
      (Cifti2MatrixIndicesMap.runOps
        ⟨some [0], some "CIFTI_INDEX_TYPE_SCALARS", none, none, none, none, none,
          [.volume ⟨none, none⟩]⟩
        [.ins 0 (.namedMap ⟨none, none, none⟩),
         .setVol ⟨some [1, 1, 1], none⟩, .delVol]) ≤ 1 ∧
    (Cifti2MatrixIndicesMap.mk (some [0]) (some "CIFTI_INDEX_TYPE_SCALARS")
        none none none none none
        [.volume ⟨none, none⟩, .namedMap ⟨none, none, none⟩]).insert 0
        (.volume ⟨some [1, 2, 3], none⟩) =
      .error (.headerError "Only one Volume can be in a MatrixIndicesMap") ∧
    (Cifti2MatrixIndicesMap.mk (some [0]) (some "CIFTI_INDEX_TYPE_SCALARS")
        none none none none none
        [.volume ⟨none, none⟩, .namedMap ⟨none, none, none⟩]).setitem 1
        (.volume ⟨some [1, 2, 3], none⟩) =
      .error (.headerError "Only one Volume can be in a MatrixIndicesMap") ∧
    (Cifti2MatrixIndicesMap.mk (some [0]) (some "CIFTI_INDEX_TYPE_SCALARS")
        none none none none none
        [.volume ⟨none, none⟩, .namedMap ⟨none, none, none⟩]).setitem 0
        (.volume ⟨some [1, 2, 3], none⟩) =
      .ok (Cifti2MatrixIndicesMap.mk (some [0]) (some "CIFTI_INDEX_TYPE_SCALARS")
        none none none none none
        [.volume ⟨some [1, 2, 3], none⟩, .namedMap ⟨none, none, none⟩]) := by
  have h0 := mim_at_most_one_volume (some [0]) (some "CIFTI_INDEX_TYPE_SCALARS")
    none none none none none [.volume ⟨none, none⟩]
    ⟨some [0], some "CIFTI_INDEX_TYPE_SCALARS", none, none, none, none, none,
      [.volume ⟨none, none⟩]⟩
    [.ins 0 (.namedMap ⟨none, none, none⟩),
     .setVol ⟨some [1, 1, 1], none⟩, .delVol]
    (Cifti2MatrixIndicesMap.mk (some [0]) (some "CIFTI_INDEX_TYPE_SCALARS")
      none none none none none
      [.volume ⟨none, none⟩, .namedMap ⟨none, none, none⟩])
    1 (by decide) (Cifti2Volume.mk (some [1, 2, 3]) none)
  have h1 := mim_at_most_one_volume (some [0]) (some "CIFTI_INDEX_TYPE_SCALARS")
    none none none none none [.volume ⟨none, none⟩]
    ⟨some [0], some "CIFTI_INDEX_TYPE_SCALARS", none, none, none, none, none,
      [.volume ⟨none, none⟩]⟩
    [.ins 0 (.namedMap ⟨none, none, none⟩),
     .setVol ⟨some [1, 1, 1], none⟩, .delVol]
    (Cifti2MatrixIndicesMap.mk (some [0]) (some "CIFTI_INDEX_TYPE_SCALARS")
      none none none none none
      [.volume ⟨none, none⟩, .namedMap ⟨none, none, none⟩])
    0 (by decide) (Cifti2Volume.mk (some [1, 2, 3]) none)
  exact ⟨h0.1 rfl, h1.2.1 rfl, h0.2.2.1 rfl rfl, h1.2.2.2 rfl⟩

/-- Model of `Cifti2Matrix` (source lines 869-922): a sequence of MatrixIndicesMaps
plus optional top-level metadata (`_meta` behind the `metadata` property). -/
structure Cifti2Matrix where
  _mims : List Cifti2MatrixIndicesMap
  _meta : Option Cifti2MetaData
deriving DecidableEq

/-- Model of `Cifti2Matrix()` — `__init__` (source lines 870-872): an empty sequence
and no metadata. -/
def Cifti2Matrix.empty : Cifti2Matrix := ⟨[], none⟩

/-- Model of `Cifti2Header` (source lines 925-940). -/
structure Cifti2Header where
  matrix : Cifti2Matrix
  version : String
deriving DecidableEq

/-- Model of `Cifti2Header.__init__` (source lines 928-932), translated literally:
`self.matrix = Cifti2Matrix() if matrix is None else Cifti2Matrix()` — both
branches of the conditional construct a fresh empty matrix, so the
`matrix` argument is discarded.  The `version` parameter defaults to
`"2.0"` at the call sites. -/
def Cifti2Header.init (matrix : Option Cifti2Matrix) (version : String) :
    Cifti2Header :=
  { matrix :=
      match matrix with
      | none => Cifti2Matrix.empty
      | some _ => Cifti2Matrix.empty
  , version := version }

/-- C2: the constructor does not wrap the provided Matrix.  For the concrete
non-empty matrix holding one MatrixIndicesMap, `Cifti2Header(matrix=m)`
carries a fresh empty matrix instead of `m` (while the version argument is
stored as given, `"2.0"` being the default). -/
theorem header_init_discards_matrix :
    (Cifti2Header.init
        (some (Cifti2Matrix.mk
          [⟨none, none, none, none, none, none, none, []⟩] none))
        "2.0").matrix = Cifti2Matrix.empty ∧
    (Cifti2Header.init
        (some (Cifti2Matrix.mk
          [⟨none, none, none, none, none, none, none, []⟩] none))
        "2.0").matrix ≠
      Cifti2Matrix.mk [⟨none, none, none, none, none, none, none, []⟩] none ∧
    (Cifti2Header.init none "2.0").version = "2.0" :=
  ⟨rfl, by decide, rfl⟩
